import Mathlib

/-!
Shallow embedding of the CSV batch import pipeline `scripts/import_books.py`.

Modelling conventions:
* A CSV input file is modelled at the interface of Python's `csv.reader`
  (an external library): a `List (List String)` of parsed rows, where an
  empty source line parses to `[]`.
* The persistent store (SQLAlchemy session + database) is an external
  collaborator; it is modelled by a `Store` oracle: `ok p` says whether the
  store accepts an insert of record `p`, and a multi-row insert statement
  succeeds exactly when every record in it is accepted (a constraint
  violation anywhere in the batch fails the statement).  `rowMsg`/`batchMsg`
  give the opaque exception texts the store raises with.
* Statements issued against the store are recorded in a `DbOp` trace
  (insert statements and rollbacks).
* Each `log_error` call is recorded as a structured `LogEvent`; the
  rendered message string (the f-string the Python code builds) is produced
  by `render`, and the byte-level content of the error-log file is obtained
  by folding `log_error` (the embedding of the Python function of the same
  name) over the rendered messages.
* Python `str.strip()` / `str.lower()` are modelled by `pyStrip` /
  `pyLower` below, written structurally over the character list of the
  string (they implement Python's semantics on ASCII data such as the
  header literal).
-/

namespace ImportBooks

/-- The characters Python's `str.strip()` removes. -/
def isPySpace (c : Char) : Bool :=
  c = ' ' ∨ c = '\t' ∨ c = '\n' ∨ c = '\r' ∨ c = '\x0b' ∨ c = '\x0c'

/-- Python `str.strip()`: drop leading and trailing whitespace. -/
def pyStrip (s : String) : String :=
  String.mk (((s.data.dropWhile isPySpace).reverse.dropWhile isPySpace).reverse)

/-- Python `str.lower()` on ASCII data. -/
def pyLower (s : String) : String :=
  String.mk (s.data.map Char.toLower)

/-- A parsed book record: the four stripped cells bound to the insert
statement parameters, as built at line 142-143 of `import_books.py`. -/
structure BookParams where
  isbn : String
  title : String
  author : String
  year : String
deriving DecidableEq, Repr

/-- The store oracle: `ok` decides whether an individual insert of a record
succeeds; `rowMsg`/`batchMsg` are the exception messages raised on a
rejected single-row / multi-row insert.  The store is external to the
repository and specified only by this interface. -/
structure Store where
  ok : BookParams → Bool
  rowMsg : BookParams → String
  batchMsg : List BookParams → String

/-- A statement issued against the store session. -/
inductive DbOp where
  | execBatch (params : List BookParams)
  | execRow (params : BookParams)
  | rollback
deriving DecidableEq, Repr

/-- One call to `log_error`, kept structurally: either the batch-level
failure message or a per-row skip naming the source line number. -/
inductive LogEvent where
  | batchFailed (msg : String)
  | skippedRow (row : Nat) (reason : String)
deriving DecidableEq, Repr

/-- The message string the Python code formats for a log event
(`f"Batch insert failed: {exc}"` / `f"Skipping row {row_index}: {reason}"`). -/
def render : LogEvent → String
  | LogEvent.batchFailed msg => "Batch insert failed: " ++ msg
  | LogEvent.skippedRow n reason => "Skipping row " ++ toString n ++ ": " ++ reason

/-- Embedding of `log_error` (import_books.py lines 28-38): appends
`message + ""` to the current content of the error-log file and returns the
new content.  Note the source appends the empty string, not a newline. -/
def log_error (content : String) (message : String) : String :=
  content ++ (message ++ "")

/-- The error-log file content produced by a sequence of log events,
starting from an empty file. -/
def logFileContent (events : List LogEvent) : String :=
  events.foldl (fun acc e => log_error acc (render e)) ""

/-- Splitting a character stream at newline characters, as a line-oriented
reader of the log file does. -/
def splitLinesAux : List Char → List Char → List (List Char)
  | [], acc => [acc.reverse]
  | c :: cs, acc =>
      if c = '\n' then acc.reverse :: splitLinesAux cs []
      else splitLinesAux cs (c :: acc)

/-- Number of text lines in a file content (the length of the split at
newline characters; an empty file reads as one empty line). -/
def lineCount (s : String) : Nat :=
  (splitLinesAux s.data []).length

/-- Result of one `insert_batch` call: the returned `(inserted, skipped,
errors)` triple together with the side channels (log events written, store
statements issued). -/
structure BatchResult where
  inserted : Nat
  skipped : Nat
  errors : Nat
  log : List LogEvent
  trace : List DbOp
deriving DecidableEq, Repr

/-- The per-row fallback loop of `insert_batch` (lines 77-91): for each
`(params, row_index)` pair, issue a single-row insert; on rejection roll
back, count the row as skipped and as an error, and log a message naming
the row's source line number. -/
def insertRows (st : Store) : List (BookParams × Nat) → BatchResult
  | [] => ⟨0, 0, 0, [], []⟩
  | (p, r) :: rest =>
      let acc := insertRows st rest
      if st.ok p then
        { acc with
          inserted := acc.inserted + 1
          trace := DbOp.execRow p :: acc.trace }
      else
        { acc with
          skipped := acc.skipped + 1
          errors := acc.errors + 1
          log := LogEvent.skippedRow r (st.rowMsg p) :: acc.log
          trace := DbOp.execRow p :: DbOp.rollback :: acc.trace }

/-- Embedding of `insert_batch` (lines 40-92).  Empty batches return
immediately.  Otherwise the multi-row insert is attempted; it succeeds
exactly when the store accepts every record, crediting the whole batch to
`inserted`.  On failure the session is rolled back, one batch-level message
is logged, and the batch degrades to the per-row loop `insertRows` over
`zip(batch_params, batch_rows)`. -/
def insert_batch (st : Store) (batch_params : List BookParams)
    (batch_rows : List Nat) : BatchResult :=
  if batch_params = [] then ⟨0, 0, 0, [], []⟩
  else if batch_params.all st.ok then
    ⟨batch_params.length, 0, 0, [], [DbOp.execBatch batch_params]⟩
  else
    let acc := insertRows st (batch_params.zip batch_rows)
    { acc with
      log := LogEvent.batchFailed (st.batchMsg batch_params) :: acc.log
      trace := DbOp.execBatch batch_params :: DbOp.rollback :: acc.trace }

/-- The mutable state of the `load_books` loop: the three counters, the two
side channels, and the in-flight batch buffer (params paired positionally
with their source line numbers). -/
structure LoadState where
  inserted : Nat
  skipped : Nat
  errors : Nat
  log : List LogEvent
  trace : List DbOp
  batch_params : List BookParams
  batch_rows : List Nat
deriving DecidableEq, Repr

/-- Initial loop state (lines 112-123). -/
def initState : LoadState :=
  ⟨0, 0, 0, [], [], [], []⟩

/-- Header detection (line 131): the first cell, stripped and lowercased,
equals the literal isbn.  `List.headI` is Python's `row[0]` for the
non-empty rows on which the check runs. -/
def isHeaderRow (row : List String) : Bool :=
  pyLower (pyStrip row.headI) = "isbn"

/-- Building the bound parameters from a row with at least 4 cells
(lines 142-143): strip each of the first four cells. -/
def rowParams (row : List String) : BookParams :=
  match row with
  | isbn :: title :: author :: year :: _ =>
      ⟨pyStrip isbn, pyStrip title, pyStrip author, pyStrip year⟩
  | _ => ⟨"", "", "", ""⟩

/-- Flushing the in-flight batch through `insert_batch` and folding its
result into the running totals (lines 149-157 and 159-163). -/
def flushBatch (st : Store) (s : LoadState) : LoadState :=
  let res := insert_batch st s.batch_params s.batch_rows
  { inserted := s.inserted + res.inserted
    skipped := s.skipped + res.skipped
    errors := s.errors + res.errors
    log := s.log ++ res.log
    trace := s.trace ++ res.trace
    batch_params := []
    batch_rows := [] }

/-- The body of the `for row_index, row in enumerate(reader, start=1)` loop
(lines 126-157): skip empty rows and header rows; count and log rows with
fewer than 4 cells as skipped; otherwise append the parsed record and its
line number to the batch, flushing when the batch is full. -/
def rowStep (st : Store) (batch_size : Nat) (s : LoadState)
    (row_index : Nat) (row : List String) : LoadState :=
  if row = [] then s
  else if isHeaderRow row then s
  else if row.length < 4 then
    { s with
      skipped := s.skipped + 1
      log := s.log ++ [LogEvent.skippedRow row_index "not enough columns"] }
  else
    let s2 :=
      { s with
        batch_params := s.batch_params ++ [rowParams row]
        batch_rows := s.batch_rows ++ [row_index] }
    if batch_size ≤ s2.batch_params.length then flushBatch st s2 else s2

/-- The streaming loop over the enumerated rows, carrying the 1-based line
number explicitly. -/
def loadLoop (st : Store) (batch_size : Nat) :
    Nat → List (List String) → LoadState → LoadState
  | _, [], s => s
  | i, row :: rest, s => loadLoop st batch_size (i + 1) rest (rowStep st batch_size s i row)

/-- Embedding of `load_books` (lines 95-169): stream the rows accumulating
batches, then flush the remaining batch.  The returned `LoadState` carries
the `(inserted, skipped, errors)` result triple together with the log
events written and the statements issued. -/
def load_books (st : Store) (rows : List (List String)) (batch_size : Nat) :
    LoadState :=
  flushBatch st (loadLoop st batch_size 1 rows initState)

/-- The summary line `main` prints (lines 179-182). -/
def summaryLine (inserted skipped : Nat) (errs : Nat) : String :=
  "Import complete. Inserted: " ++ toString inserted ++
    ", Skipped: " ++ toString skipped ++ ", Errors: " ++ toString errs

/-- Embedding of `main` (lines 172-182): if the default data file is
absent, raise `FileNotFoundError` with a descriptive message before any
store interaction; otherwise run `load_books` with the default batch size
500 and print the summary line.  The `ok` result carries the printed
summary and the statements issued against the store; the `error` result is
the raised exception message. -/
def main (dataPathExists : Bool) (dataPath : String) (st : Store)
    (rows : List (List String)) : Except String (String × List DbOp) :=
  if dataPathExists then
    let r := load_books st rows 500
    Except.ok (summaryLine r.inserted r.skipped r.errors, r.trace)
  else
    Except.error ("CSV file not found: " ++ dataPath)

/-- A row that line 126-132 neither drops as empty nor as a header: the
data rows that reach the counting logic. -/
def dataRow (row : List String) : Bool :=
  ¬ row = [] ∧ ¬ isHeaderRow row

/-!
Fallible-log variant.  `log_error` opens the error-log file for append on
every call and has no exception handling, and none of its call sites in
`insert_batch`/`load_books` wrap it in try/except, so an I/O failure during
a log write is an uncaught exception.  The `_f` definitions below are the
same code with this possibility made explicit: `logFails` says whether
appends to the log destination raise, and `Except.error` is an exception
propagating out of the function.  The `DbOp` trace is elided here; the
counters and log content are threaded left-to-right as the loop runs.
-/

/-- `log_error` with its possible I/O failure explicit: raises when the log
destination cannot be written, otherwise appends as `log_error` does. -/
def log_error_f (logFails : Bool) (content : String) (message : String) :
    Except String String :=
  if logFails then Except.error "I/O error: cannot write to error log"
  else Except.ok (log_error content message)

/-- The per-row fallback loop of `insert_batch` with fallible logging,
threading `(inserted, skipped, errors, log content)`. -/
def insertRows_f (logFails : Bool) (st : Store) :
    List (BookParams × Nat) → Nat × Nat × Nat × String →
      Except String (Nat × Nat × Nat × String)
  | [], acc => Except.ok acc
  | (p, r) :: rest, (i, sk, er, c) =>
      if st.ok p then insertRows_f logFails st rest (i + 1, sk, er, c)
      else
        match log_error_f logFails c (render (LogEvent.skippedRow r (st.rowMsg p))) with
        | Except.error m => Except.error m
        | Except.ok c2 => insertRows_f logFails st rest (i, sk + 1, er + 1, c2)

/-- `insert_batch` with fallible logging. -/
def insert_batch_f (logFails : Bool) (st : Store) (batch_params : List BookParams)
    (batch_rows : List Nat) (content : String) :
    Except String (Nat × Nat × Nat × String) :=
  if batch_params = [] then Except.ok (0, 0, 0, content)
  else if batch_params.all st.ok then
    Except.ok (batch_params.length, 0, 0, content)
  else
    match log_error_f logFails content (render (LogEvent.batchFailed (st.batchMsg batch_params))) with
    | Except.error m => Except.error m
    | Except.ok c2 => insertRows_f logFails st (batch_params.zip batch_rows) (0, 0, 0, c2)

/-- State of the fallible-log loop: counters, log file content, in-flight
batch. -/
structure LoadStateF where
  inserted : Nat
  skipped : Nat
  errors : Nat
  logContent : String
  batch_params : List BookParams
  batch_rows : List Nat
deriving DecidableEq, Repr

/-- Initial fallible-log loop state. -/
def initStateF : LoadStateF :=
  ⟨0, 0, 0, "", [], []⟩

/-- The loop body of `load_books` with fallible logging. -/
def rowStep_f (logFails : Bool) (st : Store) (batch_size : Nat) (s : LoadStateF)
    (row_index : Nat) (row : List String) : Except String LoadStateF :=
  if row = [] then Except.ok s
  else if isHeaderRow row then Except.ok s
  else if row.length < 4 then
    match log_error_f logFails s.logContent
        (render (LogEvent.skippedRow row_index "not enough columns")) with
    | Except.error m => Except.error m
    | Except.ok c2 =>
        Except.ok { s with skipped := s.skipped + 1, logContent := c2 }
  else
    let s2 :=
      { s with
        batch_params := s.batch_params ++ [rowParams row]
        batch_rows := s.batch_rows ++ [row_index] }
    if batch_size ≤ s2.batch_params.length then
      match insert_batch_f logFails st s2.batch_params s2.batch_rows s2.logContent with
      | Except.error m => Except.error m
      | Except.ok (i, sk, er, c2) =>
          Except.ok
            { inserted := s2.inserted + i
              skipped := s2.skipped + sk
              errors := s2.errors + er
              logContent := c2
              batch_params := []
              batch_rows := [] }
    else Except.ok s2

/-- The streaming loop with fallible logging: an uncaught exception from a
log write aborts the remaining iterations. -/
def loadLoop_f (logFails : Bool) (st : Store) (batch_size : Nat) :
    Nat → List (List String) → LoadStateF → Except String LoadStateF
  | _, [], s => Except.ok s
  | i, row :: rest, s =>
      match rowStep_f logFails st batch_size s i row with
      | Except.error m => Except.error m
      | Except.ok s2 => loadLoop_f logFails st batch_size (i + 1) rest s2

/-- `load_books` with fallible logging: returns the `(inserted, skipped,
errors)` triple, or the exception that propagated out of the load (the
`finally` block at line 166-167 only releases the session and re-raises). -/
def load_books_f (logFails : Bool) (st : Store) (rows : List (List String))
    (batch_size : Nat) : Except String (Nat × Nat × Nat) :=
  match loadLoop_f logFails st batch_size 1 rows initStateF with
  | Except.error m => Except.error m
  | Except.ok s =>
      match insert_batch_f logFails st s.batch_params s.batch_rows s.logContent with
      | Except.error m => Except.error m
      | Except.ok (i, sk, er, _) =>
          Except.ok (s.inserted + i, s.skipped + sk, s.errors + er)

/-! ### Specification-side definitions used by the theorems -/

/-- The per-row log entries the batch-failure protocol dictates: one skip
entry per rejected record, naming that record's source line number, in the
original input order. -/
def perRowLog (st : Store) : List (BookParams × Nat) → List LogEvent
  | [] => []
  | (p, r) :: rest =>
      if st.ok p then perRowLog st rest
      else LogEvent.skippedRow r (st.rowMsg p) :: perRowLog st rest

/-- The statements the batch-failure protocol dictates after degradation:
one single-row insert per record in input order, a rollback right after
each rejected one, and nothing else. -/
def perRowTrace (st : Store) : List (BookParams × Nat) → List DbOp
  | [] => []
  | (p, r) :: rest =>
      if st.ok p then DbOp.execRow p :: perRowTrace st rest
      else DbOp.execRow p :: DbOp.rollback :: perRowTrace st rest

/-- Extracts the record of a single-row insert statement. -/
def execRowParams : DbOp → Option BookParams
  | DbOp.execRow p => some p
  | _ => none

/-- Recognizes a batch-level log message. -/
def isBatchFailedEvent : LogEvent → Bool
  | LogEvent.batchFailed _ => true
  | LogEvent.skippedRow _ _ => false

/-- Loop invariant of `load_books`: the row-number buffer mirrors the batch
buffer, every data row seen so far is accounted for in
`inserted + skipped + |batch|`, and `errors` never exceeds `skipped`. -/
def Inv (n : Nat) (s : LoadState) : Prop :=
  s.batch_rows.length = s.batch_params.length ∧
  s.inserted + s.skipped + s.batch_params.length = n ∧
  s.errors ≤ s.skipped

/-- Two loop states that agree on everything the final counts depend on:
the counters and the buffered records.  The buffered row numbers may
differ (they only flow into log messages), but each must mirror its batch
buffer in length. -/
def Eqv (s1 s2 : LoadState) : Prop :=
  s1.inserted = s2.inserted ∧ s1.skipped = s2.skipped ∧ s1.errors = s2.errors ∧
  s1.batch_params = s2.batch_params ∧
  s1.batch_rows.length = s1.batch_params.length ∧
  s2.batch_rows.length = s2.batch_params.length

/-- A store that accepts every record, for instantiating scenarios. -/
def allOkStore : Store :=
  ⟨fun _ => true, fun _ => "", fun _ => ""⟩

/-- A store that rejects exactly the records whose isbn is the literal dup
(a unique-constraint violation on that key) and accepts all others. -/
def dupStore : Store :=
  ⟨fun p => ! (p.isbn = "dup"), fun _ => "duplicate key value", fun _ => "constraint violation"⟩

/-- Scenario 1 input at the csv-reader interface: a header line, a valid
4-column row, and a 3-column row. -/
def scenario1Rows : List (List String) :=
  [["isbn", "title", "author", "year"],
   ["123", "T1", "A1", "2001"],
   ["124", "T2", "A2"]]

/-- A 3-record batch whose middle record `dupStore` rejects and whose other
records it accepts individually. -/
def demoBatch : List BookParams :=
  [⟨"100", "T1", "A1", "2001"⟩,
   ⟨"dup", "T2", "A2", "2002"⟩,
   ⟨"101", "T3", "A3", "2003"⟩]

/-! ### Counting lemmas for the insert executor -/

/-- The per-row loop counts one `inserted` per accepted record and one
`skipped` and one `errors` per rejected record, over the params component
of the pairs it receives. -/
theorem insertRows_counts (st : Store) (l : List (BookParams × Nat)) :
    (insertRows st l).inserted = (l.map Prod.fst).countP st.ok ∧
    (insertRows st l).skipped = (l.map Prod.fst).countP (fun p => ! st.ok p) ∧
    (insertRows st l).errors = (l.map Prod.fst).countP (fun p => ! st.ok p) := by
  induction l with
  | nil => simp [insertRows]
  | cons hd tl ih =>
      obtain ⟨p, r⟩ := hd
      by_cases h : st.ok p
      · simp [insertRows, h, List.countP_cons, ih.1, ih.2.1, ih.2.2]
      · simp [insertRows, h, List.countP_cons, ih.1, ih.2.1, ih.2.2]

/-- `insert_batch` counts, whenever the row-number list covers the batch
(as it always does at both call sites in `load_books`): accepted records
are counted in `inserted`, rejected ones in both `skipped` and `errors`. -/
theorem insert_batch_counts (st : Store) (ps : List BookParams) (rs : List Nat)
    (h : ps.length ≤ rs.length) :
    (insert_batch st ps rs).inserted = ps.countP st.ok ∧
    (insert_batch st ps rs).skipped = ps.countP (fun p => ! st.ok p) ∧
    (insert_batch st ps rs).errors = ps.countP (fun p => ! st.ok p) := by
  unfold insert_batch
  by_cases hemp : ps = []
  · simp [hemp]
  · by_cases hall : ps.all st.ok
    · have h1 : ps.countP st.ok = ps.length := by
        rw [List.countP_eq_length]
        intro a ha
        exact List.all_eq_true.mp hall a ha
      have h2 : ps.countP (fun p => ! st.ok p) = 0 := by
        rw [List.countP_eq_zero]
        intro a ha
        simp [List.all_eq_true.mp hall a ha]
      simp [hemp, hall, h1, h2]
    · have hz : (ps.zip rs).map Prod.fst = ps := List.map_fst_zip ps rs h
      have hc := insertRows_counts st (ps.zip rs)
      rw [hz] at hc
      simp [hemp, hall, hc.1, hc.2.1, hc.2.2]

/-- A list splits into the records a Boolean predicate accepts and those it
rejects. -/
theorem countP_ok_add_not (f : BookParams → Bool) (l : List BookParams) :
    l.countP f + l.countP (fun p => ! f p) = l.length := by
  induction l with
  | nil => simp
  | cons a tl ih =>
      cases h : f a <;> simp [List.countP_cons, h] <;> omega

/-- Every record of a covered batch lands in exactly one of `inserted` and
`skipped`. -/
theorem insert_batch_split (st : Store) (ps : List BookParams) (rs : List Nat)
    (h : ps.length ≤ rs.length) :
    (insert_batch st ps rs).inserted + (insert_batch st ps rs).skipped = ps.length ∧
    (insert_batch st ps rs).errors = (insert_batch st ps rs).skipped := by
  obtain ⟨h1, h2, h3⟩ := insert_batch_counts st ps rs h
  refine ⟨?_, by rw [h2, h3]⟩
  rw [h1, h2]
  exact countP_ok_add_not st.ok ps

/-! ### The conservation invariant of the loader loop -/

/-- Projection lemma: flushing empties the batch buffer. -/
theorem flushBatch_batch_params (st : Store) (s : LoadState) :
    (flushBatch st s).batch_params = [] := rfl

/-- Projection lemma: flushing empties the row-number buffer. -/
theorem flushBatch_batch_rows (st : Store) (s : LoadState) :
    (flushBatch st s).batch_rows = [] := rfl

/-- Flushing preserves the invariant: the batch moves wholesale into
`inserted + skipped`, and the per-row failures add equally to `skipped`
and `errors`. -/
theorem flushBatch_inv (st : Store) (n : Nat) (s : LoadState) (h : Inv n s) :
    Inv n (flushBatch st s) := by
  obtain ⟨hw, hm, he⟩ := h
  obtain ⟨hsp, her⟩ := insert_batch_split st s.batch_params s.batch_rows (le_of_eq hw.symm)
  unfold flushBatch
  refine ⟨rfl, ?_, ?_⟩ <;> simp <;> omega

/-- One loop iteration increases the accounted-for total by one exactly
when the row is a data row. -/
theorem rowStep_inv (st : Store) (bs : Nat) (s : LoadState) (i : Nat)
    (row : List String) (n : Nat) (h : Inv n s) :
    Inv (n + (if dataRow row then 1 else 0)) (rowStep st bs s i row) := by
  obtain ⟨hw, hm, he⟩ := h
  by_cases h0 : row = []
  · simpa [rowStep, dataRow, h0] using ⟨hw, hm, he⟩
  · by_cases h1 : isHeaderRow row
    · simpa [rowStep, dataRow, h0, h1] using ⟨hw, hm, he⟩
    · have hd : dataRow row = true := by simp [dataRow, h0, h1]
      by_cases h2 : row.length < 4
      · refine ⟨?_, ?_, ?_⟩ <;> simp [rowStep, h0, h1, h2, hd] <;> omega
      · set s2 : LoadState :=
          { s with
            batch_params := s.batch_params ++ [rowParams row]
            batch_rows := s.batch_rows ++ [i] } with hs2
        have hinv2 : Inv (n + 1) s2 := by
          refine ⟨?_, ?_, ?_⟩ <;> simp [hs2] <;> omega
        by_cases h3 : bs ≤ s.batch_params.length + 1
        · have := flushBatch_inv st (n + 1) s2 hinv2
          simpa [rowStep, h0, h1, h2, hd, hs2, h3] using this
        · simpa [rowStep, h0, h1, h2, hd, hs2, h3] using hinv2

/-- The streaming loop preserves the invariant, adding one accounted-for
unit per data row. -/
theorem loadLoop_inv (st : Store) (bs : Nat) (rows : List (List String)) :
    ∀ (i n : Nat) (s : LoadState), Inv n s →
      Inv (n + rows.countP dataRow) (loadLoop st bs i rows s) := by
  induction rows with
  | nil => intro i n s h; simpa [loadLoop] using h
  | cons row rest ih =>
      intro i n s h
      have h2 := rowStep_inv st bs s i row n h
      have h3 := ih (i + 1) (n + (if dataRow row then 1 else 0)) _ h2
      have harith :
          n + (if dataRow row then 1 else 0) + rest.countP dataRow
            = n + (row :: rest).countP dataRow := by
        rw [List.countP_cons]
        omega
      rw [harith] at h3
      simpa [loadLoop] using h3

/-! ### Count equivalence under row renumbering -/

/-- Flushing two count-equivalent states yields count-equivalent states:
the buffered records are the same, and `insert_batch` counts do not depend
on the row numbers. -/
theorem flushBatch_eqv (st : Store) (s1 s2 : LoadState) (h : Eqv s1 s2) :
    Eqv (flushBatch st s1) (flushBatch st s2) := by
  obtain ⟨hi, hs, he, hb, hw1, hw2⟩ := h
  obtain ⟨a1, b1, c1⟩ := insert_batch_counts st s1.batch_params s1.batch_rows (le_of_eq hw1.symm)
  obtain ⟨a2, b2, c2⟩ := insert_batch_counts st s2.batch_params s2.batch_rows (le_of_eq hw2.symm)
  refine ⟨?_, ?_, ?_, rfl, rfl, rfl⟩ <;> simp only [flushBatch]
  · rw [hi, a1, a2, hb]
  · rw [hs, b1, b2, hb]
  · rw [he, c1, c2, hb]

/-- One loop iteration preserves count equivalence even when the two runs
assign different line numbers to the row. -/
theorem rowStep_eqv (st : Store) (bs : Nat) (s1 s2 : LoadState) (i j : Nat)
    (row : List String) (h : Eqv s1 s2) :
    Eqv (rowStep st bs s1 i row) (rowStep st bs s2 j row) := by
  obtain ⟨hi, hs, he, hb, hw1, hw2⟩ := h
  by_cases h0 : row = []
  · simpa [rowStep, h0] using ⟨hi, hs, he, hb, hw1, hw2⟩
  · by_cases h1 : isHeaderRow row
    · simpa [rowStep, h0, h1] using ⟨hi, hs, he, hb, hw1, hw2⟩
    · by_cases h2 : row.length < 4
      · exact ⟨by simp [rowStep, h0, h1, h2, hi], by simp [rowStep, h0, h1, h2, hs],
          by simp [rowStep, h0, h1, h2, he], by simp [rowStep, h0, h1, h2, hb],
          by simp [rowStep, h0, h1, h2, hw1], by simp [rowStep, h0, h1, h2, hw2]⟩
      · set s1b : LoadState :=
          { s1 with
            batch_params := s1.batch_params ++ [rowParams row]
            batch_rows := s1.batch_rows ++ [i] } with hs1b
        set s2b : LoadState :=
          { s2 with
            batch_params := s2.batch_params ++ [rowParams row]
            batch_rows := s2.batch_rows ++ [j] } with hs2b
        have heqv : Eqv s1b s2b := by
          refine ⟨hi, hs, he, ?_, ?_, ?_⟩ <;> simp [hs1b, hs2b, hb, hw1, hw2]
        have hll : s2.batch_params.length = s1.batch_params.length := by rw [hb]
        by_cases h3 : bs ≤ s1.batch_params.length + 1
        · have := flushBatch_eqv st s1b s2b heqv
          simpa [rowStep, h0, h1, h2, hs1b, hs2b, hll, h3] using this
        · simpa [rowStep, h0, h1, h2, hs1b, hs2b, hll, h3] using heqv

/-- The whole loop preserves count equivalence across different starting
line numbers. -/
theorem loadLoop_eqv (st : Store) (bs : Nat) (rows : List (List String)) :
    ∀ (i j : Nat) (s1 s2 : LoadState), Eqv s1 s2 →
      Eqv (loadLoop st bs i rows s1) (loadLoop st bs j rows s2) := by
  induction rows with
  | nil => intro i j s1 s2 h; simpa [loadLoop] using h
  | cons row rest ih =>
      intro i j s1 s2 h
      have h2 := ih (i + 1) (j + 1) _ _ (rowStep_eqv st bs s1 s2 i j row h)
      simpa [loadLoop] using h2

/-- Splitting the loop over an appended input. -/
theorem loadLoop_append (st : Store) (bs : Nat) (l1 l2 : List (List String)) :
    ∀ (i : Nat) (s : LoadState),
      loadLoop st bs i (l1 ++ l2) s
        = loadLoop st bs (i + l1.length) l2 (loadLoop st bs i l1 s) := by
  induction l1 with
  | nil => intro i s; simp [loadLoop]
  | cons row rest ih =>
      intro i s
      have harith : i + 1 + rest.length = i + (rest.length + 1) := by omega
      simp [loadLoop, ih (i + 1), harith]

/-- A row whose first cell strips and lowercases to the header literal is
dropped without any effect on the loop state, whatever its position and
line number. -/
theorem rowStep_header (st : Store) (bs : Nat) (s : LoadState) (i : Nat)
    (row : List String) (h : isHeaderRow row = true) :
    rowStep st bs s i row = s := by
  by_cases h0 : row = [] <;> simp [rowStep, h0, h]

/-! ### Abort lemmas for the fallible-log model -/

/-- Did the computation propagate an exception? -/
def raisedError {α : Type} : Except String α → Bool
  | Except.error _ => true
  | Except.ok _ => false

/-- With a failing log destination, the loop body raises on any short data
row (the structural-error branch writes to the log unguarded). -/
theorem rowStep_f_short (st : Store) (bs : Nat) (s : LoadStateF) (i : Nat)
    (row : List String) (h0 : ¬ row = []) (h1 : isHeaderRow row = false)
    (h2 : row.length < 4) :
    rowStep_f true st bs s i row
      = Except.error "I/O error: cannot write to error log" := by
  simp [rowStep_f, h0, h1, h2, log_error_f]

/-- With a failing log destination, the loop aborts whenever the input
holds a short data row. -/
theorem loadLoop_f_aborts (st : Store) (bs : Nat) (rows : List (List String)) :
    ∀ (i : Nat) (s : LoadStateF),
      (∃ r ∈ rows, ¬ r = [] ∧ isHeaderRow r = false ∧ r.length < 4) →
      raisedError (loadLoop_f true st bs i rows s) = true := by
  induction rows with
  | nil =>
      intro i s h
      obtain ⟨r, hr, _⟩ := h
      simp at hr
  | cons row rest ih =>
      intro i s h
      obtain ⟨r, hr, hr1, hr2, hr3⟩ := h
      rcases List.mem_cons.mp hr with heq | hmem
      · subst heq
        have hstep := rowStep_f_short st bs s i r hr1 hr2 hr3
        simp [loadLoop_f, hstep, raisedError]
      · cases hstep : rowStep_f true st bs s i row with
        | error m => simp [loadLoop_f, hstep, raisedError]
        | ok s2 =>
            have := ih (i + 1) s2 ⟨r, hmem, hr1, hr2, hr3⟩
            simpa [loadLoop_f, hstep] using this

/-! ### Further protocol lemmas for the insert executor -/

/-- The per-row loop writes exactly the protocol's log entries and issues
exactly the protocol's statements. -/
theorem insertRows_effects (st : Store) (l : List (BookParams × Nat)) :
    (insertRows st l).log = perRowLog st l ∧
    (insertRows st l).trace = perRowTrace st l := by
  induction l with
  | nil => simp [insertRows, perRowLog, perRowTrace]
  | cons hd tl ih =>
      obtain ⟨p, r⟩ := hd
      by_cases h : st.ok p <;>
        simp [insertRows, perRowLog, perRowTrace, h, ih.1, ih.2]

/-- The degraded trace issues exactly one single-row insert per record, in
the original order. -/
theorem perRowTrace_rowInserts (st : Store) (l : List (BookParams × Nat)) :
    (perRowTrace st l).filterMap execRowParams = l.map Prod.fst := by
  induction l with
  | nil => simp [perRowTrace]
  | cons hd tl ih =>
      obtain ⟨p, r⟩ := hd
      by_cases h : st.ok p <;> simp [perRowTrace, h, execRowParams, ih]

/-- The per-row log holds no batch-level message. -/
theorem perRowLog_no_batch_events (st : Store) (l : List (BookParams × Nat)) :
    (perRowLog st l).countP isBatchFailedEvent = 0 := by
  induction l with
  | nil => simp [perRowLog]
  | cons hd tl ih =>
      obtain ⟨p, r⟩ := hd
      by_cases h : st.ok p <;>
        simp [perRowLog, h, List.countP_cons, isBatchFailedEvent, ih]

/-! ### Claim theorems -/

/-- C1.  Conservation invariant: for every input, every store and every
batch size, the final counts of `load_books` satisfy
`inserted + skipped = number of rows that are neither empty nor header
rows`, and `errors` never exceeds `skipped` (errors annotate a subset of
the skipped rows, they are not a disjoint tally). -/
theorem load_books_conservation (st : Store) (rows : List (List String)) (bs : Nat) :
    (load_books st rows bs).inserted + (load_books st rows bs).skipped
        = rows.countP dataRow ∧
    (load_books st rows bs).errors ≤ (load_books st rows bs).skipped := by
  have h0 : Inv 0 initState := ⟨rfl, rfl, Nat.le_refl 0⟩
  have h1 := loadLoop_inv st bs rows 1 0 initState h0
  rw [Nat.zero_add] at h1
  obtain ⟨hw, hm, he⟩ := flushBatch_inv st (rows.countP dataRow) _ h1
  rw [flushBatch_batch_params] at hm
  simp only [List.length_nil, Nat.add_zero] at hm
  exact ⟨hm, he⟩

/-- C2.  Isolation under degradation: if the row-number list covers the
batch (as at every call site) and the store rejects exactly one record of
the batch, accepting the other `B - 1` individually, then `insert_batch`
returns `inserted = B - 1`, `skipped = 1`, `errors = 1`: the batch is not
discarded because of the one bad row. -/
theorem insert_batch_isolation (st : Store) (ps : List BookParams) (rs : List Nat)
    (hlen : ps.length = rs.length)
    (hone : ps.countP (fun p => ! st.ok p) = 1) :
    (insert_batch st ps rs).inserted = ps.length - 1 ∧
    (insert_batch st ps rs).skipped = 1 ∧
    (insert_batch st ps rs).errors = 1 := by
  obtain ⟨h1, h2, h3⟩ := insert_batch_counts st ps rs (le_of_eq hlen)
  have hsum := countP_ok_add_not st.ok ps
  exact ⟨by omega, by rw [h2, hone], by rw [h3, hone]⟩

/-- C3.  Batch-failure protocol: on a non-empty covered batch whose
multi-row insert the store rejects, `insert_batch` issues the batch
statement, rolls back, logs exactly one batch-level message (first), then
attempts every record of the same batch individually in input order —
rejected records roll back, add one to `skipped` and to `errors`, and log
one message naming their original source line number, accepted ones add
one to `inserted` — and issues no statement beyond the one attempt per
record. -/
theorem insert_batch_failure_protocol (st : Store) (ps : List BookParams)
    (rs : List Nat) (hne : ¬ ps = []) (hlen : ps.length = rs.length)
    (hfail : ps.all st.ok = false) :
    (insert_batch st ps rs).inserted = ps.countP st.ok ∧
    (insert_batch st ps rs).skipped = ps.countP (fun p => ! st.ok p) ∧
    (insert_batch st ps rs).errors = ps.countP (fun p => ! st.ok p) ∧
    (insert_batch st ps rs).log
        = LogEvent.batchFailed (st.batchMsg ps) :: perRowLog st (ps.zip rs) ∧
    (insert_batch st ps rs).trace
        = DbOp.execBatch ps :: DbOp.rollback :: perRowTrace st (ps.zip rs) ∧
    (insert_batch st ps rs).trace.filterMap execRowParams = ps ∧
    (insert_batch st ps rs).log.countP isBatchFailedEvent = 1 := by
  have hz : (ps.zip rs).map Prod.fst = ps := List.map_fst_zip ps rs (le_of_eq hlen)
  obtain ⟨hi, hs, he⟩ := insert_batch_counts st ps rs (le_of_eq hlen)
  have hnall : ¬ (ps.all st.ok = true) := by rw [hfail]; exact Bool.false_ne_true
  obtain ⟨hlg, htr⟩ := insertRows_effects st (ps.zip rs)
  have hib : insert_batch st ps rs =
      { insertRows st (ps.zip rs) with
        log := LogEvent.batchFailed (st.batchMsg ps) :: (insertRows st (ps.zip rs)).log
        trace := DbOp.execBatch ps :: DbOp.rollback :: (insertRows st (ps.zip rs)).trace } := by
    unfold insert_batch
    rw [if_neg hne, if_neg hnall]
  refine ⟨hi, hs, he, ?_, ?_, ?_, ?_⟩
  · rw [hib]; simpa using hlg
  · rw [hib]; simpa using htr
  · rw [hib]
    simp [List.filterMap_cons, execRowParams, htr, perRowTrace_rowInserts, hz]
  · rw [hib]
    simp [List.countP_cons, isBatchFailedEvent, hlg, perRowLog_no_batch_events]

/-- C4 counterexample.  On Scenario 1's input (header, one valid 4-column
row, one 3-column row) with a store accepting everything, the run returns
`errors = 0`, not `errors = 1` as the claim states: the structural skip at
line 134-140 increments only `skipped`. -/
theorem scenario1_errors_not_one :
    (load_books allOkStore scenario1Rows 500).errors = 0 ∧
    ¬ (load_books allOkStore scenario1Rows 500).errors = 1 := by
  exact ⟨rfl, by decide⟩

/-- C4 (amended).  Scenario 1: the run returns `inserted = 1`,
`skipped = 1`, `errors = 0`, and the error log holds the
not-enough-columns entry for the second data line (source line 3). -/
theorem scenario1_counts :
    (load_books allOkStore scenario1Rows 500).inserted = 1 ∧
    (load_books allOkStore scenario1Rows 500).skipped = 1 ∧
    (load_books allOkStore scenario1Rows 500).errors = 0 ∧
    LogEvent.skippedRow 3 "not enough columns"
      ∈ (load_books allOkStore scenario1Rows 500).log := by
  refine ⟨rfl, rfl, rfl, ?_⟩
  decide

/-- C5 (code bug).  `log_error` appends `message + ""` — no newline — so
two skip events land on a single line of the error-log file instead of
two: the logging contract of one line per event does not hold in the
file. -/
theorem log_error_no_newline :
    lineCount (logFileContent
      [LogEvent.skippedRow 2 "not enough columns",
       LogEvent.skippedRow 3 "not enough columns"]) = 1 ∧
    ¬ lineCount (logFileContent
      [LogEvent.skippedRow 2 "not enough columns",
       LogEvent.skippedRow 3 "not enough columns"]) = 2 := by
  exact ⟨rfl, by decide⟩

/-- C6 counterexample.  A run over a single short data row with a failing
log destination does not complete: `load_books` propagates the logger's
I/O exception instead of returning counts. -/
theorem log_failure_aborts_concrete :
    load_books_f true allOkStore [["124", "T2", "A2"]] 500
      = Except.error "I/O error: cannot write to error log" := rfl

/-- C6 (amended).  An I/O failure inside the error logger aborts the load:
whenever the input holds a row the loader must log (here, a short data
row) and appends to the log destination raise, `load_books` propagates the
exception to its caller. -/
theorem load_books_f_aborts_on_log_failure (st : Store) (rows : List (List String))
    (bs : Nat) (r : List String) (hmem : r ∈ rows) (h1 : ¬ r = [])
    (h2 : isHeaderRow r = false) (h3 : r.length < 4) :
    raisedError (load_books_f true st rows bs) = true := by
  have h := loadLoop_f_aborts st bs rows 1 initStateF ⟨r, hmem, h1, h2, h3⟩
  unfold load_books_f
  cases hl : loadLoop_f true st bs 1 rows initStateF with
  | error m => simp [raisedError]
  | ok s => rw [hl] at h; simp [raisedError] at h

/-- C7.  Empty input: on a zero-row file and on a header-only file,
`load_books` returns `(0, 0, 0)` issuing no statement against the store,
the run raises nothing even with a failing log destination, and `main`
prints the all-zero summary line. -/
theorem scenario3_empty_input (st : Store) (p : String) :
    (load_books st [] 500).inserted = 0 ∧
    (load_books st [] 500).skipped = 0 ∧
    (load_books st [] 500).errors = 0 ∧
    (load_books st [] 500).trace = [] ∧
    (load_books st [["isbn", "title", "author", "year"]] 500).inserted = 0 ∧
    (load_books st [["isbn", "title", "author", "year"]] 500).skipped = 0 ∧
    (load_books st [["isbn", "title", "author", "year"]] 500).errors = 0 ∧
    (load_books st [["isbn", "title", "author", "year"]] 500).trace = [] ∧
    load_books_f true st [] 500 = Except.ok (0, 0, 0) ∧
    load_books_f true st [["isbn", "title", "author", "year"]] 500
      = Except.ok (0, 0, 0) ∧
    main true p st [] = Except.ok (summaryLine 0 0 0, []) ∧
    main true p st [["isbn", "title", "author", "year"]]
      = Except.ok (summaryLine 0 0 0, []) := by
  exact ⟨rfl, rfl, rfl, rfl, rfl, rfl, rfl, rfl, rfl, rfl, rfl, rfl⟩

/-- C8.  Fail-fast on a missing source file: for every store and input,
`main` with an absent data path raises the descriptive file-not-found
message; no summary is printed and no statement reaches the store (the
error outcome carries neither). -/
theorem main_missing_file (p : String) (st : Store) (rows : List (List String)) :
    main false p st rows = Except.error ("CSV file not found: " ++ p) ∧
    ∀ out : String × List DbOp, ¬ main false p st rows = Except.ok out := by
  refine ⟨rfl, ?_⟩
  intro out h
  simp [main] at h

/-- C9.  Idempotent header skip: for an input without header rows,
prepending a header line (first field strips and lowercases to the header
literal) leaves the `(inserted, skipped, errors)` counts of the run
unchanged; the header line is counted in no tally. -/
theorem load_books_header_idempotent (st : Store) (rows : List (List String))
    (bs : Nat) (hdr : List String) (hh : isHeaderRow hdr = true)
    (hnoh : ∀ r ∈ rows, isHeaderRow r = false) :
    (load_books st (hdr :: rows) bs).inserted = (load_books st rows bs).inserted ∧
    (load_books st (hdr :: rows) bs).skipped = (load_books st rows bs).skipped ∧
    (load_books st (hdr :: rows) bs).errors = (load_books st rows bs).errors := by
  have heqv0 : Eqv initState initState := ⟨rfl, rfl, rfl, rfl, rfl, rfl⟩
  have hloop := loadLoop_eqv st bs rows 2 1 initState initState heqv0
  have h2 : load_books st (hdr :: rows) bs
      = flushBatch st (loadLoop st bs 2 rows initState) := by
    unfold load_books
    simp [loadLoop, rowStep_header st bs initState 1 hdr hh]
  obtain ⟨ha, hb, hc, _⟩ := flushBatch_eqv st _ _ hloop
  rw [h2]
  exact ⟨ha, hb, hc⟩

/-- C10 (implicit).  Header detection applies to every line: a row whose
first cell strips and lowercases to the header literal is silently dropped
wherever it occurs — the loop state is entirely unchanged (nothing
inserted, no count, no log entry, no statement), and a run on a file
containing such a row mid-stream yields the same counts as the run
without it. -/
theorem header_like_row_dropped (st : Store) (bs : Nat) (row : List String)
    (hh : isHeaderRow row = true) :
    (∀ (s : LoadState) (i : Nat), rowStep st bs s i row = s) ∧
    ∀ (pre post : List (List String)),
      (load_books st (pre ++ row :: post) bs).inserted
          = (load_books st (pre ++ post) bs).inserted ∧
      (load_books st (pre ++ row :: post) bs).skipped
          = (load_books st (pre ++ post) bs).skipped ∧
      (load_books st (pre ++ row :: post) bs).errors
          = (load_books st (pre ++ post) bs).errors := by
  refine ⟨fun s i => rowStep_header st bs s i row hh, ?_⟩
  intro pre post
  have h0 : Inv 0 initState := ⟨rfl, rfl, Nat.le_refl 0⟩
  have hwf := (loadLoop_inv st bs pre 1 0 initState h0).1
  have heqv : Eqv (loadLoop st bs 1 pre initState) (loadLoop st bs 1 pre initState) :=
    ⟨rfl, rfl, rfl, rfl, hwf, hwf⟩
  have hloop := loadLoop_eqv st bs post (1 + pre.length + 1) (1 + pre.length) _ _ heqv
  have hl : loadLoop st bs 1 (pre ++ row :: post) initState
      = loadLoop st bs (1 + pre.length + 1) post (loadLoop st bs 1 pre initState) := by
    rw [loadLoop_append]
    simp [loadLoop, rowStep_header st bs _ _ row hh]
  have hr : loadLoop st bs 1 (pre ++ post) initState
      = loadLoop st bs (1 + pre.length) post (loadLoop st bs 1 pre initState) :=
    loadLoop_append st bs pre post 1 initState
  obtain ⟨ha, hb, hc, _⟩ := flushBatch_eqv st _ _ hloop
  unfold load_books
  rw [hl, hr]
  exact ⟨ha, hb, hc⟩

/-! ### Concrete witnesses -/

/-- Witness for C2: a 3-record batch in which `dupStore` rejects exactly
the middle record yields 2 inserted, 1 skipped, 1 error. -/
theorem insert_batch_isolation_witness :
    (insert_batch dupStore demoBatch [2, 3, 4]).inserted = demoBatch.length - 1 ∧
    (insert_batch dupStore demoBatch [2, 3, 4]).skipped = 1 ∧
    (insert_batch dupStore demoBatch [2, 3, 4]).errors = 1 :=
  insert_batch_isolation dupStore demoBatch [2, 3, 4] (by decide) (by decide)

/-- Witness for C3: the failure protocol at the same concrete batch. -/
theorem insert_batch_failure_protocol_witness :
    (insert_batch dupStore demoBatch [2, 3, 4]).inserted
        = demoBatch.countP dupStore.ok ∧
    (insert_batch dupStore demoBatch [2, 3, 4]).skipped
        = demoBatch.countP (fun p => ! dupStore.ok p) ∧
    (insert_batch dupStore demoBatch [2, 3, 4]).errors
        = demoBatch.countP (fun p => ! dupStore.ok p) ∧
    (insert_batch dupStore demoBatch [2, 3, 4]).log
        = LogEvent.batchFailed (dupStore.batchMsg demoBatch)
            :: perRowLog dupStore (demoBatch.zip [2, 3, 4]) ∧
    (insert_batch dupStore demoBatch [2, 3, 4]).trace
        = DbOp.execBatch demoBatch :: DbOp.rollback
            :: perRowTrace dupStore (demoBatch.zip [2, 3, 4]) ∧
    (insert_batch dupStore demoBatch [2, 3, 4]).trace.filterMap execRowParams
        = demoBatch ∧
    (insert_batch dupStore demoBatch [2, 3, 4]).log.countP isBatchFailedEvent = 1 :=
  insert_batch_failure_protocol dupStore demoBatch [2, 3, 4]
    (by decide) (by decide) (by decide)

/-- Witness for C6's amended statement: a file with one short data row,
loaded while the log destination raises, aborts. -/
theorem load_books_f_aborts_witness :
    raisedError (load_books_f true allOkStore [["9"]] 500) = true :=
  load_books_f_aborts_on_log_failure allOkStore [["9"]] 500 ["9"]
    (by decide) (by decide) (by decide) (by decide)

/-- Witness for C9: prepending the usual header to a concrete two-row file
without one leaves all three counts unchanged. -/
theorem load_books_header_idempotent_witness :
    (load_books allOkStore
        (["isbn", "title", "author", "year"] :: [["1", "A", "B", "2000"], ["2"]])
        500).inserted
      = (load_books allOkStore [["1", "A", "B", "2000"], ["2"]] 500).inserted ∧
    (load_books allOkStore
        (["isbn", "title", "author", "year"] :: [["1", "A", "B", "2000"], ["2"]])
        500).skipped
      = (load_books allOkStore [["1", "A", "B", "2000"], ["2"]] 500).skipped ∧
    (load_books allOkStore
        (["isbn", "title", "author", "year"] :: [["1", "A", "B", "2000"], ["2"]])
        500).errors
      = (load_books allOkStore [["1", "A", "B", "2000"], ["2"]] 500).errors :=
  load_books_header_idempotent allOkStore [["1", "A", "B", "2000"], ["2"]] 500
    ["isbn", "title", "author", "year"] (by decide) (by decide)

/-- Witness for C10: a mid-file row whose first cell strips and lowercases
to the header literal changes neither the loop state nor the counts. -/
theorem header_like_row_dropped_witness :
    rowStep allOkStore 500 initState 5 [" ISBN ", "T2", "A2", "2002"] = initState ∧
    (load_books allOkStore
        ([["1", "A", "B", "2000"]] ++ [" ISBN ", "T2", "A2", "2002"]
          :: [["2", "C", "D", "2001"]]) 500).inserted
      = (load_books allOkStore
          ([["1", "A", "B", "2000"]] ++ [["2", "C", "D", "2001"]]) 500).inserted := by
  have h := header_like_row_dropped allOkStore 500 [" ISBN ", "T2", "A2", "2002"] (by decide)
  exact ⟨h.1 initState 5, (h.2 [["1", "A", "B", "2000"]] [["2", "C", "D", "2001"]]).1⟩

end ImportBooks
